import Mathlib

/-!
Verification of the EMV card reader repository (sivesa/rfid_card_reader).

The Python sources are shallowly embedded: byte strings become `List Nat`,
the two BER-TLV parsers (`parse_tlv_fixed` and `parse_tlv` of
`emv_card_reader.py` / `emv_card_reader2.py`, identical in both files)
become total Lean functions, the card transport becomes a scripted
state machine, and the python dict built by the parsers becomes an
association structure with python dict-assignment semantics
(replace value in place when the key exists, append otherwise).

The parsers are index loops whose index strictly increases, so they are
written with a fuel argument that starts at `data.length + 1`; fuel
sufficiency (the loop really terminates within that bound) is proved in
`tlvFixedGo_fuel_irrelevant`.
-/

mutual
/-- Result tree of the python TLV parsers: a value is either raw bytes or a
nested parsed dict (for the recognised constructed templates). -/
inductive TlvVal where
  | raw (v : List Nat)
  | node (d : TlvEntries)
/-- Entries of the python dict built by a parser call, in insertion order. -/
inductive TlvEntries where
  | nil
  | ent (tag : Nat) (v : TlvVal) (rest : TlvEntries)
end

/-- Python dict assignment `tlv[key] = v`: replace in place when the key is
present (keeping its position), append otherwise.  Keys of the python dicts
are `hex(tag)` (or the parent path plus `hex(tag)`), which within one parser
call is injective in the tag, so keys are modelled by the tag itself. -/
def dictInsert : TlvEntries → Nat → TlvVal → TlvEntries
  | .nil, k, v => .ent k v .nil
  | .ent k' v' rest, k, v =>
    if k' = k then .ent k v rest else .ent k' v' (dictInsert rest k v)

/-- The loop `for _ in range(n): if i < len(data): length = (length << 8) | data[i]; i += 1`
from `parse_tlv_fixed`.  Returns the accumulated length and the new index. -/
def readLenLoop (data : List Nat) : Nat → Nat → Nat → Nat × Nat
  | i, 0, acc => (acc, i)
  | i, n + 1, acc =>
    if i < data.length then readLenLoop data (i + 1) n ((acc <<< 8) ||| data.getD i 0)
    else (acc, i)

/-- Tag parsing shared by both python parsers: read one byte, and when its
low five bits are all set and a further byte exists, extend to a two-byte
tag `(first << 8) | second`.  Returns the tag and the new index. -/
def parseTagAt (data : List Nat) (i : Nat) : Nat × Nat :=
  if data.getD i 0 &&& 0x1F = 0x1F then
    if i + 1 < data.length then ((data.getD i 0 <<< 8) ||| data.getD (i + 1) 0, i + 2)
    else (data.getD i 0, i + 1)
  else (data.getD i 0, i + 1)

/-- Length parsing of `parse_tlv_fixed`: short form is the byte itself; long
form `0x80|n` reads up to `n` following big-endian bytes. -/
def parseLenFixed (data : List Nat) (i1 : Nat) : Nat × Nat :=
  if data.getD i1 0 &&& 0x80 ≠ 0 then readLenLoop data (i1 + 1) (data.getD i1 0 &&& 0x7F) 0
  else (data.getD i1 0, i1 + 1)

/-- Length parsing of `parse_tlv` (the non-fixed parser): long form reads one
following byte only when `n = 1`; otherwise it uses `min n (len - i)` itself
as the length. -/
def parseLen2 (data : List Nat) (i1 : Nat) : Nat × Nat :=
  if data.getD i1 0 &&& 0x80 ≠ 0 then
    if data.getD i1 0 &&& 0x7F = 1 ∧ i1 + 1 < data.length then (data.getD (i1 + 1) 0, i1 + 2)
    else (min (data.getD i1 0 &&& 0x7F) (data.length - (i1 + 1)), i1 + 1)
  else (data.getD i1 0, i1 + 1)

/-- Constructed templates recursed into by `parse_tlv_fixed`. -/
def emvTemplatesFixed : List Nat := [0x70, 0x77, 0xA5, 0x6F, 0x61]

/-- Constructed templates recursed into by `parse_tlv`. -/
def emvTemplates2 : List Nat := [0x70, 0x77, 0xA5, 0x6F, 0x61, 0xBF0C]

/-- Loop body of `parse_tlv_fixed` (`emv_card_reader.py` lines 94-155,
`emv_card_reader2.py` lines 109-160): requires two remaining bytes, parses
tag and length, caps the length at the end of the slice, stops on a capped
length of zero, recurses into known constructed templates. -/
def tlvFixedGo : Nat → List Nat → Nat → TlvEntries → TlvEntries
  | 0, _, _, acc => acc
  | fuel + 1, data, i, acc =>
    if i + 1 < data.length then
      let tag := (parseTagAt data i).1
      let i1 := (parseTagAt data i).2
      if i1 < data.length then
        let i2 := (parseLenFixed data i1).2
        let len1 := min (parseLenFixed data i1).1 (data.length - i2)
        if data.length < i2 + len1 ∨ len1 = 0 then acc
        else
          let value := (data.drop i2).take len1
          let entry :=
            if tag &&& 0x20 ≠ 0 ∧ emvTemplatesFixed.contains tag then
              TlvVal.node (tlvFixedGo fuel value 0 .nil)
            else TlvVal.raw value
          tlvFixedGo fuel data (i2 + len1) (dictInsert acc tag entry)
      else acc
    else acc

/-- `parse_tlv_fixed(data)` of the source. -/
def parse_tlv_fixed (data : List Nat) : TlvEntries := tlvFixedGo (data.length + 1) data 0 .nil

/-- Loop body of `parse_tlv` (`emv_card_reader.py` lines 157-208): requires
one remaining byte, no cap of the decoded length (elements reaching past the
slice are dropped by the break), zero-length values allowed. -/
def tlvGo : Nat → List Nat → Nat → TlvEntries → TlvEntries
  | 0, _, _, acc => acc
  | fuel + 1, data, i, acc =>
    if i < data.length then
      let tag := (parseTagAt data i).1
      let i1 := (parseTagAt data i).2
      if i1 < data.length then
        let i2 := (parseLen2 data i1).2
        let len0 := (parseLen2 data i1).1
        if data.length < i2 + len0 then acc
        else
          let value := (data.drop i2).take len0
          let entry :=
            if tag &&& 0x20 ≠ 0 ∧ emvTemplates2.contains tag then
              TlvVal.node (tlvGo fuel value 0 .nil)
            else TlvVal.raw value
          tlvGo fuel data (i2 + len0) (dictInsert acc tag entry)
      else acc
    else acc

/-- `parse_tlv(data)` of the source. -/
def parse_tlv (data : List Nat) : TlvEntries := tlvGo (data.length + 1) data 0 .nil

/-- The nested walker `find_aid_in_tlv` of `extract_aids_from_ppse`
(`emv_card_reader.py` lines 241-257): appends every 0x4F raw value in
iteration order, recurses into nested dicts, and reports through a flag
whether anything was appended. -/
def find_aid_in_tlv : TlvEntries → List (List Nat) × Bool
  | .nil => ([], false)
  | .ent t (.raw v) rest =>
    if t = 0x4F then (v :: (find_aid_in_tlv rest).1, true)
    else find_aid_in_tlv rest
  | .ent _ (.node d) rest =>
    ((find_aid_in_tlv d).1 ++ (find_aid_in_tlv rest).1,
      (find_aid_in_tlv d).2 || (find_aid_in_tlv rest).2)

/-- Brute-force 0x4F scan of `extract_aids_from_ppse` (lines 265-277): scan
for a 0x4F byte, read the following byte as a length, capture when it fits. -/
def bruteScanGo : Nat → List Nat → Nat → List (List Nat) → List (List Nat)
  | 0, _, _, acc => acc
  | fuel + 1, resp, i, acc =>
    if i < resp.length - 1 then
      if resp.getD i 0 = 0x4F then
        if i + 2 + resp.getD (i + 1) 0 ≤ resp.length then
          bruteScanGo fuel resp (i + 2 + resp.getD (i + 1) 0)
            (acc ++ [(resp.drop (i + 2)).take (resp.getD (i + 1) 0)])
        else bruteScanGo fuel resp (i + 1) acc
      else bruteScanGo fuel resp (i + 1) acc
    else acc

/-- The brute-force scan entry point, fuel set to the obvious bound. -/
def brute_scan (resp : List Nat) : List (List Nat) := bruteScanGo (resp.length + 1) resp 0 []

/-- The hard-coded Mastercard fallback AID of `extract_aids_from_ppse`. -/
def mastercardFallback : List Nat := [0xA0, 0x00, 0x00, 0x00, 0x04, 0x10, 0x10]

/-- `extract_aids_from_ppse(ppse_resp)` of `emv_card_reader.py` (lines
229-282, identical logic in `emv_acr122u_reader.py` lines 237-287): TLV
walk first; on no find, brute-force scan; on still nothing, the hard-coded
Mastercard AID. -/
def extract_aids_from_ppse (resp : List Nat) : List (List Nat) :=
  let fa := find_aid_in_tlv (parse_tlv resp)
  let aids := if fa.2 then fa.1 else brute_scan resp
  if aids = [] then [mastercardFallback] else aids

/-- One transport response unit: response bytes and the two status words. -/
structure Resp where
  data : List Nat
  sw1 : Nat
  sw2 : Nat
deriving DecidableEq

/-- A scripted transport: `transmit` consumes the script in order and logs
every sent command, modelling the mock transports of the spec scenarios. -/
structure TransState where
  script : List Resp
  sent : List (List Nat)
deriving DecidableEq

/-- `self.connection.transmit(apdu)` wrapped by `send_apdu`: pops the next
scripted response and records the command. -/
def transmit (st : TransState) (cmd : List Nat) : Resp × TransState :=
  (st.script.headD ⟨[], 0, 0⟩, ⟨st.script.tail, st.sent ++ [cmd]⟩)

/-- `get_response(length)`: sends `00 C0 00 00 <length>`. -/
def get_response (st : TransState) (length : Nat) : Resp × TransState :=
  transmit st [0x00, 0xC0, 0x00, 0x00, length]

/-- The byte string `2PAY.SYS.DDF01`. -/
def ppseName : List Nat :=
  [0x32, 0x50, 0x41, 0x59, 0x2E, 0x53, 0x59, 0x53, 0x2E, 0x44, 0x44, 0x46, 0x30, 0x31]

/-- `select_ppse()` of `emv_card_reader.py` (lines 55-73): SELECT without a
trailing Le byte, a single GET RESPONSE on sw1 = 0x61, response bytes
returned only on 9000. -/
def select_ppse (st : TransState) : Option (List Nat) × TransState :=
  let apdu := [0x00, 0xA4, 0x04, 0x00, ppseName.length] ++ ppseName
  let t1 := transmit st apdu
  let t2 := if t1.1.sw1 = 0x61 then get_response t1.2 t1.1.sw2 else t1
  if t2.1.sw1 = 0x90 ∧ t2.1.sw2 = 0x00 then (some t2.1.data, t2.2) else (none, t2.2)

/-- `select_aid(aid)` (lines 75-92): SELECT by name with trailing Le 0x00, a
single GET RESPONSE on sw1 = 0x61, response bytes returned only on 9000.
There is no 0x6C handling here. -/
def select_aid (st : TransState) (aid : List Nat) : Option (List Nat) × TransState :=
  let apdu := [0x00, 0xA4, 0x04, 0x00, aid.length] ++ aid ++ [0x00]
  let t1 := transmit st apdu
  let t2 := if t1.1.sw1 = 0x61 then get_response t1.2 t1.1.sw2 else t1
  if t2.1.sw1 = 0x90 ∧ t2.1.sw2 = 0x00 then (some t2.1.data, t2.2) else (none, t2.2)

/-- One record attempt of `read_card_records` (lines 477-491): READ RECORD
with Le 0x00, GET RESPONSE on 0x61, then on sw1 = 0x6C with sw2 ≤ 256 the
original command is reissued with its last byte replaced by sw2, the 0x61
rule applied once more. -/
def read_record_once (st : TransState) (recordNum p2 : Nat) : Resp × TransState :=
  let apdu := [0x00, 0xB2, recordNum, p2, 0x00]
  let t1 := transmit st apdu
  let t2 := if t1.1.sw1 = 0x61 then get_response t1.2 t1.1.sw2 else t1
  if t2.1.sw1 = 0x6C ∧ t2.1.sw2 ≤ 256 then
    let t3 := transmit t2.2 [0x00, 0xB2, recordNum, p2, t2.1.sw2]
    if t3.1.sw1 = 0x61 then get_response t3.2 t3.1.sw2 else t3
  else t2

/-- `range(1, 10)` of the record loop. -/
def record_nums : List Nat := [1, 2, 3, 4, 5, 6, 7, 8, 9]

/-- `sfis_to_try = [1, 2, 3, 4]` of `emv_card_reader.py`
(`emv_card_reader2.py` uses `[1, 2, 3, 4, 5]`). -/
def sfis_to_try : List Nat := [1, 2, 3, 4]

/-- The inner record loop of `read_card_records` (lines 477-510): collect on
9000 with non-empty data, stop the SFI on 6A82/6A83 or 6985, continue on any
other status. -/
def read_records_go (p2 : Nat) : TransState → List Nat → List (Nat × List Nat) × TransState
  | st, [] => ([], st)
  | st, rn :: rest =>
    let r := (read_record_once st rn p2).1
    let st1 := (read_record_once st rn p2).2
    if r.sw1 = 0x90 ∧ r.sw2 = 0x00 ∧ 0 < r.data.length then
      ((rn, r.data) :: (read_records_go p2 st1 rest).1, (read_records_go p2 st1 rest).2)
    else if r.sw1 = 0x6A ∧ (r.sw2 = 0x82 ∨ r.sw2 = 0x83) then ([], st1)
    else if r.sw1 = 0x69 ∧ r.sw2 = 0x85 then ([], st1)
    else read_records_go p2 st1 rest

/-- The outer SFI loop of `read_card_records` (lines 471-512): each SFI of
`sfis_to_try` is swept independently with `p2 = (sfi << 3) | 0x04`. -/
def read_card_records_go : TransState → List Nat → List (Nat × List (Nat × List Nat)) × TransState
  | st, [] => ([], st)
  | st, sfi :: rest =>
    let sw := read_records_go ((sfi <<< 3) ||| 0x04) st record_nums
    ((sfi, sw.1) :: (read_card_records_go sw.2 rest).1, (read_card_records_go sw.2 rest).2)

/-- `read_card_records()` of `emv_card_reader.py` (lines 459-517). -/
def read_card_records (st : TransState) : List (Nat × List (Nat × List Nat)) × TransState :=
  read_card_records_go st sfis_to_try

/-- `self.fallback_aids` of `emv_card_reader2.py` (lines 26-32), in source
order: Mastercard, Mastercard alternate, Visa, Visa alternate, FNB/JCB. -/
def fallback_aids : List (List Nat) :=
  [[0xA0, 0x00, 0x00, 0x00, 0x04, 0x10, 0x10],
   [0xA0, 0x00, 0x00, 0x00, 0x04, 0x01],
   [0xA0, 0x00, 0x00, 0x00, 0x03, 0x10, 0x10],
   [0xA0, 0x00, 0x00, 0x00, 0x03, 0x80, 0x02],
   [0xA0, 0x00, 0x00, 0x00, 0x65, 0x10, 0x10]]

/-- The AID selection loop of `read_card` in `emv_card_reader2.py` (lines
1074-1078): pick the first AID for which `select_aid` returns a truthy
(non-`None`, non-empty) response. -/
def select_first_aid : TransState → List (List Nat) → Option (List Nat × List Nat) × TransState
  | st, [] => (none, st)
  | st, aid :: rest =>
    let s := select_aid st aid
    match s.1 with
    | some resp => if resp = [] then select_first_aid s.2 rest else (some (resp, aid), s.2)
    | none => select_first_aid s.2 rest

/-- Uppercase hex digit for a nibble, as in python `f"{b:02X}"`. -/
def hexChar (n : Nat) : Char := if n < 10 then Char.ofNat (48 + n) else Char.ofNat (55 + n)

/-- `''.join(f"{b:02X}" for b in bs)` for byte values below 256. -/
def render_hex (bs : List Nat) : List Char :=
  bs.flatMap (fun b => [hexChar ((b >>> 4) &&& 0xF), hexChar (b &&& 0xF)])

/-- Python `s.rstrip('F')`. -/
def rstripF (s : List Char) : List Char := (s.reverse.dropWhile (fun c => c = 'F')).reverse

/-- The PAN plausibility test of `extract_cardholder_data_fixed` in
`emv_card_reader.py` (lines 544-548): at least 8 bytes, rendered string of
at least 16 characters, all decimal digits. -/
def pan_accepted_fixed (pan : List Nat) : Bool :=
  decide (8 ≤ pan.length) && decide (16 ≤ (render_hex pan).length)
    && (render_hex pan).all Char.isDigit

/-- The PAN plausibility test of `extract_cardholder_data_fixed` in
`emv_card_reader2.py` (lines 525-529): at least 4 bytes, rendered string
stripped of trailing F of at least 8 characters, all decimal digits. -/
def pan_accepted2 (pan : List Nat) : Bool :=
  decide (4 ≤ pan.length) && decide (8 ≤ (rstripF (render_hex pan)).length)
    && (rstripF (render_hex pan)).all Char.isDigit

/-- The masking expression shared by every extraction path of both files:
`f"{pan_str[:6]}******{pan_str[-4:]}"`. -/
def pan_masked (panStr : List Char) : List Char :=
  panStr.take 6 ++ ['*', '*', '*', '*', '*', '*'] ++ panStr.drop (panStr.length - 4)

/-- Modelled from the spec: collect every primitive value carrying the given
tag, at any depth, in depth-first traversal order, without deduplication. -/
def collectPrim (t : Nat) : TlvEntries → List (List Nat)
  | .nil => []
  | .ent tag (.raw v) rest => (if tag = t then [v] else []) ++ collectPrim t rest
  | .ent _ (.node d) rest => collectPrim t d ++ collectPrim t rest

/-- Big-endian accumulation of length bytes: `((0 << 8 | b1) << 8 | b2) ...`. -/
def beFold (l : List Nat) : Nat := l.foldl (fun a b => (a <<< 8) ||| b) 0

/-- `v` is a contiguous sub-slice of `s`. -/
def Subslice (v s : List Nat) : Prop := ∃ a b, s = a ++ v ++ b

theorem subslice_drop_take (l : List Nat) (i n : Nat) : Subslice ((l.drop i).take n) l := by
  refine ⟨l.take i, (l.drop i).drop n, ?_⟩
  rw [List.append_assoc, List.take_append_drop, List.take_append_drop]

/-- Every raw value of the entries, at any depth, is a contiguous sub-slice
of `s`; nested dicts are covered by a sub-slice of `s` in which all their
raw values live. -/
def EntriesWithin : TlvEntries → List Nat → Prop
  | .nil, _ => True
  | .ent _ (.raw v) rest, s => Subslice v s ∧ EntriesWithin rest s
  | .ent _ (.node d) rest, s =>
    (∃ sub, Subslice sub s ∧ EntriesWithin d sub) ∧ EntriesWithin rest s

/-- The per-value form of `EntriesWithin`. -/
def ValWithin (v : TlvVal) (s : List Nat) : Prop :=
  match v with
  | .raw w => Subslice w s
  | .node d => ∃ sub, Subslice sub s ∧ EntriesWithin d sub

theorem entriesWithin_ent {t : Nat} {v : TlvVal} {rest : TlvEntries} {s : List Nat} :
    EntriesWithin (.ent t v rest) s ↔ ValWithin v s ∧ EntriesWithin rest s := by
  cases v <;> simp [EntriesWithin, ValWithin]

/-- Every raw value of the entries, at any depth, has at least one byte. -/
def entriesRawsPos : TlvEntries → Bool
  | .nil => true
  | .ent _ (.raw v) rest => decide (v ≠ []) && entriesRawsPos rest
  | .ent _ (.node d) rest => entriesRawsPos d && entriesRawsPos rest

/-- The per-value form of `entriesRawsPos`. -/
def valRawsPos (v : TlvVal) : Bool :=
  match v with
  | .raw w => decide (w ≠ [])
  | .node d => entriesRawsPos d

theorem entriesRawsPos_ent {t : Nat} {v : TlvVal} {rest : TlvEntries} :
    entriesRawsPos (.ent t v rest) = (valRawsPos v && entriesRawsPos rest) := by
  cases v <;> rfl

theorem dictInsert_within {s : List Nat} :
    ∀ (d : TlvEntries) (k : Nat) (v : TlvVal),
      EntriesWithin d s → ValWithin v s → EntriesWithin (dictInsert d k v) s
  | .nil, k, v, _, hv => by
    simpa [dictInsert, entriesWithin_ent, EntriesWithin] using hv
  | .ent k' v' rest, k, v, hd, hv => by
    rw [entriesWithin_ent] at hd
    rw [dictInsert]
    split
    · exact entriesWithin_ent.mpr ⟨hv, hd.2⟩
    · exact entriesWithin_ent.mpr ⟨hd.1, dictInsert_within rest k v hd.2 hv⟩

theorem dictInsert_pos :
    ∀ (d : TlvEntries) (k : Nat) (v : TlvVal),
      entriesRawsPos d = true → valRawsPos v = true → entriesRawsPos (dictInsert d k v) = true
  | .nil, k, v, _, hv => by
    rw [dictInsert, entriesRawsPos_ent]
    simp [hv, entriesRawsPos]
  | .ent k' v' rest, k, v, hd, hv => by
    rw [entriesRawsPos_ent, Bool.and_eq_true] at hd
    rw [dictInsert]
    split
    · rw [entriesRawsPos_ent]
      simp [hv, hd.2]
    · rw [entriesRawsPos_ent]
      simp [hd.1, dictInsert_pos rest k v hd.2 hv]

theorem readLenLoop_le (data : List Nat) (i n acc : Nat) :
    i ≤ (readLenLoop data i n acc).2 := by
  induction n generalizing i acc with
  | zero => simp [readLenLoop]
  | succ m ih =>
    simp only [readLenLoop]
    split
    · exact Nat.le_trans (Nat.le_succ i) (ih (i + 1) _)
    · exact Nat.le_refl i

theorem parseTagAt_ge (data : List Nat) (i : Nat) : i + 1 ≤ (parseTagAt data i).2 := by
  unfold parseTagAt
  split
  · split <;> simp
  · simp

theorem parseLenFixed_ge (data : List Nat) (i1 : Nat) : i1 + 1 ≤ (parseLenFixed data i1).2 := by
  unfold parseLenFixed
  split
  · exact readLenLoop_le data (i1 + 1) _ 0
  · simp

theorem parseLen2_ge (data : List Nat) (i1 : Nat) : i1 + 1 ≤ (parseLen2 data i1).2 := by
  unfold parseLen2
  split
  · split <;> simp
  · simp

theorem tlvFixedGo_within :
    ∀ (fuel : Nat) (data : List Nat) (i : Nat) (acc : TlvEntries),
      EntriesWithin acc data → EntriesWithin (tlvFixedGo fuel data i acc) data := by
  intro fuel
  induction fuel with
  | zero => intro data i acc h; simpa [tlvFixedGo] using h
  | succ f ih =>
    intro data i acc h
    simp only [tlvFixedGo]
    split
    · split
      · split
        · exact h
        · refine ih data _ _ (dictInsert_within _ _ _ h ?_)
          split
          · exact ⟨_, subslice_drop_take _ _ _, ih _ 0 .nil trivial⟩
          · exact subslice_drop_take _ _ _
      · exact h
    · exact h

theorem tlvFixedGo_pos :
    ∀ (fuel : Nat) (data : List Nat) (i : Nat) (acc : TlvEntries),
      entriesRawsPos acc = true → entriesRawsPos (tlvFixedGo fuel data i acc) = true := by
  intro fuel
  induction fuel with
  | zero => intro data i acc h; simpa [tlvFixedGo] using h
  | succ f ih =>
    intro data i acc h
    simp only [tlvFixedGo]
    split
    · split
      · split
        · exact h
        · rename_i hcontinue
          refine ih data _ _ (dictInsert_pos _ _ _ h ?_)
          have hlen : ((data.drop (parseLenFixed data (parseTagAt data i).2).2).take
              (min (parseLenFixed data (parseTagAt data i).2).1
                (data.length - (parseLenFixed data (parseTagAt data i).2).2))) ≠ [] := by
            have h1 : ¬ (data.length < (parseLenFixed data (parseTagAt data i).2).2 +
                min (parseLenFixed data (parseTagAt data i).2).1
                  (data.length - (parseLenFixed data (parseTagAt data i).2).2)) := by
              intro hc
              exact hcontinue (Or.inl hc)
            have h2 : min (parseLenFixed data (parseTagAt data i).2).1
                (data.length - (parseLenFixed data (parseTagAt data i).2).2) ≠ 0 := by
              intro hc
              exact hcontinue (Or.inr hc)
            intro hc
            have := congrArg List.length hc
            simp only [List.length_take, List.length_drop, List.length_nil] at this
            omega
          split
          · exact ih _ 0 .nil rfl
          · simpa [valRawsPos] using hlen
      · exact h
    · exact h

theorem tlvFixedGo_fuel_irrelevant :
    ∀ (f g : Nat) (data : List Nat) (i : Nat) (acc : TlvEntries),
      data.length - i < f → data.length - i < g →
      tlvFixedGo f data i acc = tlvFixedGo g data i acc := by
  intro f
  induction f with
  | zero => intro g data i acc hf; omega
  | succ f ih =>
    intro g data i acc hf hg
    match g, hg with
    | g + 1, hg =>
      simp only [tlvFixedGo]
      have hi1 := parseTagAt_ge data i
      have hi2 := parseLenFixed_ge data (parseTagAt data i).2
      split
      · rename_i hguard
        split
        · split
          · rfl
          · rename_i hcontinue
            have hmin : min (parseLenFixed data (parseTagAt data i).2).1
                (data.length - (parseLenFixed data (parseTagAt data i).2).2) ≤
                data.length - (parseLenFixed data (parseTagAt data i).2).2 :=
              Nat.min_le_right _ _
            have hlenpos : min (parseLenFixed data (parseTagAt data i).2).1
                (data.length - (parseLenFixed data (parseTagAt data i).2).2) ≠ 0 := by
              intro hc
              exact hcontinue (Or.inr hc)
            have hvlen : ((data.drop (parseLenFixed data (parseTagAt data i).2).2).take
                (min (parseLenFixed data (parseTagAt data i).2).1
                  (data.length - (parseLenFixed data (parseTagAt data i).2).2))).length ≤
                data.length - (parseLenFixed data (parseTagAt data i).2).2 := by
              simp only [List.length_take, List.length_drop]
              omega
            have hval : ((data.drop (parseLenFixed data (parseTagAt data i).2).2).take
                (min (parseLenFixed data (parseTagAt data i).2).1
                  (data.length - (parseLenFixed data (parseTagAt data i).2).2))).length < f ∧
                ((data.drop (parseLenFixed data (parseTagAt data i).2).2).take
                (min (parseLenFixed data (parseTagAt data i).2).1
                  (data.length - (parseLenFixed data (parseTagAt data i).2).2))).length < g := by
              omega
            have hentry :
                (if (parseTagAt data i).1 &&& 0x20 ≠ 0 ∧
                    emvTemplatesFixed.contains (parseTagAt data i).1 then
                  TlvVal.node (tlvFixedGo f ((data.drop (parseLenFixed data (parseTagAt data i).2).2).take
                    (min (parseLenFixed data (parseTagAt data i).2).1
                      (data.length - (parseLenFixed data (parseTagAt data i).2).2))) 0 .nil)
                else TlvVal.raw ((data.drop (parseLenFixed data (parseTagAt data i).2).2).take
                    (min (parseLenFixed data (parseTagAt data i).2).1
                      (data.length - (parseLenFixed data (parseTagAt data i).2).2)))) =
                (if (parseTagAt data i).1 &&& 0x20 ≠ 0 ∧
                    emvTemplatesFixed.contains (parseTagAt data i).1 then
                  TlvVal.node (tlvFixedGo g ((data.drop (parseLenFixed data (parseTagAt data i).2).2).take
                    (min (parseLenFixed data (parseTagAt data i).2).1
                      (data.length - (parseLenFixed data (parseTagAt data i).2).2))) 0 .nil)
                else TlvVal.raw ((data.drop (parseLenFixed data (parseTagAt data i).2).2).take
                    (min (parseLenFixed data (parseTagAt data i).2).1
                      (data.length - (parseLenFixed data (parseTagAt data i).2).2)))) := by
              split
              · rw [ih g _ 0 .nil (by omega) (by omega)]
              · rfl
            rw [hentry]
            exact ih g data _ _ (by omega) (by omega)
        · rfl
      · rfl

theorem find_aid_eq_collect :
    ∀ d : TlvEntries, find_aid_in_tlv d = (collectPrim 0x4F d, !(collectPrim 0x4F d).isEmpty)
  | .nil => rfl
  | .ent t (.raw v) rest => by
    rw [find_aid_in_tlv, collectPrim, find_aid_eq_collect rest]
    split
    · simp
    · simp
  | .ent t (.node d) rest => by
    rw [find_aid_in_tlv, collectPrim, find_aid_eq_collect d, find_aid_eq_collect rest]
    cases collectPrim 0x4F d <;> simp

theorem readLenLoop_reads :
    ∀ (n i acc : Nat) (data : List Nat), i + n ≤ data.length →
      readLenLoop data i n acc =
        (((data.drop i).take n).foldl (fun a b => (a <<< 8) ||| b) acc, i + n) := by
  intro n
  induction n with
  | zero => intro i acc data h; simp [readLenLoop]
  | succ m ih =>
    intro i acc data h
    have hi : i < data.length := by omega
    rw [readLenLoop, if_pos hi, ih (i + 1) _ data (by omega)]
    have hdrop : data.drop i = data[i] :: data.drop (i + 1) := List.drop_eq_getElem_cons hi
    have hgetD : data.getD i 0 = data[i] := by
      simp [List.getD_eq_getElem?_getD, List.getElem?_eq_getElem hi]
    rw [hdrop, hgetD]
    simp only [List.take_succ_cons, List.foldl_cons, Prod.mk.injEq]
    exact ⟨trivial, by omega⟩

theorem tlvFixedGo_at_end (fuel : Nat) (data : List Nat) (i : Nat) (acc : TlvEntries)
    (h : data.length ≤ i + 1) : tlvFixedGo fuel data i acc = acc := by
  cases fuel with
  | zero => rfl
  | succ f =>
    rw [tlvFixedGo]
    rw [if_neg (by omega)]

/-- C1 (amended): for every accepted PAN digit string, the masked PAN is the
first six digits, then exactly six asterisk characters, then the last four
digits, so its length is 16 (equal to the PAN length only when n = 16). -/
theorem c1_pan_mask_amended :
    ∀ s : List Char, 10 ≤ s.length →
      (pan_masked s).length = 16 ∧
      (pan_masked s).take 6 = s.take 6 ∧
      (pan_masked s).drop 12 = s.drop (s.length - 4) ∧
      ((pan_masked s).drop 6).take 6 = List.replicate 6 '*' := by
  intro s h
  have htake : (s.take 6).length = 6 := by
    simp [List.length_take]
    omega
  refine ⟨?_, ?_, ?_, ?_⟩
  · simp [pan_masked, List.length_append, List.length_take, List.length_drop]
    omega
  · rw [pan_masked, List.append_assoc]
    exact List.take_left' htake
  · rw [pan_masked]
    apply List.drop_left'
    simp [List.length_append, htake]
  · rw [pan_masked, List.append_assoc, List.drop_left' htake]
    rfl

/-- C1 witness: a concrete ten-digit PAN string satisfying the length bound,
with the amended masking facts instantiated. -/
theorem c1_pan_mask_witness :
    10 ≤ (['1', '2', '3', '4', '5', '6', '7', '8', '9', '0'] : List Char).length ∧
      ((pan_masked ['1', '2', '3', '4', '5', '6', '7', '8', '9', '0']).length = 16 ∧
       (pan_masked ['1', '2', '3', '4', '5', '6', '7', '8', '9', '0']).take 6 =
         (['1', '2', '3', '4', '5', '6', '7', '8', '9', '0'] : List Char).take 6 ∧
       (pan_masked ['1', '2', '3', '4', '5', '6', '7', '8', '9', '0']).drop 12 =
         (['1', '2', '3', '4', '5', '6', '7', '8', '9', '0'] : List Char).drop
           ((['1', '2', '3', '4', '5', '6', '7', '8', '9', '0'] : List Char).length - 4) ∧
       ((pan_masked ['1', '2', '3', '4', '5', '6', '7', '8', '9', '0']).drop 6).take 6 =
         List.replicate 6 '*') :=
  ⟨by decide, c1_pan_mask_amended ['1', '2', '3', '4', '5', '6', '7', '8', '9', '0'] (by decide)⟩

/-- C1 counterexample: the 18-digit PAN rendered from nine bytes is accepted
as plausible by both files, yet its mask has length 16, not 18. -/
theorem c1_pan_mask_counterexample :
    pan_accepted_fixed [0x12, 0x34, 0x56, 0x78, 0x90, 0x12, 0x34, 0x56, 0x78] = true ∧
    pan_accepted2 [0x12, 0x34, 0x56, 0x78, 0x90, 0x12, 0x34, 0x56, 0x78] = true ∧
    (render_hex [0x12, 0x34, 0x56, 0x78, 0x90, 0x12, 0x34, 0x56, 0x78]).length = 18 ∧
    (pan_masked (render_hex [0x12, 0x34, 0x56, 0x78, 0x90, 0x12, 0x34, 0x56, 0x78])).length ≠
      (render_hex [0x12, 0x34, 0x56, 0x78, 0x90, 0x12, 0x34, 0x56, 0x78]).length := by
  refine ⟨by decide, by decide, by decide, by decide⟩

/-- C2: the strict decoder is total (the Lean embedding is a total function
and the loop stabilises within the fuel bound `data.length + 1`), and every
returned raw value, at any depth, is a contiguous sub-slice of the slice it
was decoded from, which is itself a contiguous sub-slice of the input. -/
theorem c2_decoder_totality :
    (∀ data : List Nat, EntriesWithin (parse_tlv_fixed data) data) ∧
    (∀ (data : List Nat) (fuel : Nat), data.length < fuel →
      tlvFixedGo fuel data 0 .nil = parse_tlv_fixed data) :=
  ⟨fun data => tlvFixedGo_within _ data 0 .nil trivial,
   fun data fuel h =>
     tlvFixedGo_fuel_irrelevant fuel (data.length + 1) data 0 .nil (by omega) (by omega)⟩

/-- C2 witness: the totality statement instantiated at a concrete nested
record, with the fuel hypothesis discharged. -/
theorem c2_decoder_totality_witness :
    EntriesWithin (parse_tlv_fixed [0x6F, 0x02, 0x4F, 0x00]) [0x6F, 0x02, 0x4F, 0x00] ∧
    tlvFixedGo 9 [0x6F, 0x02, 0x4F, 0x00] 0 .nil = parse_tlv_fixed [0x6F, 0x02, 0x4F, 0x00] :=
  ⟨c2_decoder_totality.1 _, c2_decoder_totality.2 [0x6F, 0x02, 0x4F, 0x00] 9 (by decide)⟩

/-- C10: every raw value returned by the strict decoder, at any depth, has at
least one byte, and a zero-length element stops decoding of the whole slice:
`5A 00 5A 01 42` yields no nodes although `5A 01 42` alone is well formed. -/
theorem c10_zero_length_stops :
    (∀ data : List Nat, entriesRawsPos (parse_tlv_fixed data) = true) ∧
    parse_tlv_fixed [0x5A, 0x00, 0x5A, 0x01, 0x42] = TlvEntries.nil ∧
    parse_tlv_fixed [0x5A, 0x01, 0x42] = .ent 0x5A (.raw [0x42]) .nil :=
  ⟨fun data => tlvFixedGo_pos _ data 0 .nil rfl, rfl, rfl⟩

/-- C7 (amended): the AID walk collects every primitive 0x4F value at any
depth of the decoded response, in traversal order, WITHOUT deduplication, and
its found flag is set exactly when the collection is non-empty. -/
theorem c7_no_dedup_amended :
    ∀ resp : List Nat,
      (find_aid_in_tlv (parse_tlv resp)).1 = collectPrim 0x4F (parse_tlv resp) ∧
      ((find_aid_in_tlv (parse_tlv resp)).2 = true ↔ collectPrim 0x4F (parse_tlv resp) ≠ []) := by
  intro resp
  rw [find_aid_eq_collect (parse_tlv resp)]
  exact ⟨rfl, by simp⟩

/-- C7 counterexample: a directory response carrying the same AID in two
distinct template paths; the returned sequence contains it twice, so the
result is not deduplicated. -/
theorem c7_counterexample :
    extract_aids_from_ppse [0x61, 0x05, 0x4F, 0x03, 0xA0, 0x01, 0x02,
        0x6F, 0x07, 0x61, 0x05, 0x4F, 0x03, 0xA0, 0x01, 0x02] =
      [[0xA0, 0x01, 0x02], [0xA0, 0x01, 0x02]] ∧
    ¬ (extract_aids_from_ppse [0x61, 0x05, 0x4F, 0x03, 0xA0, 0x01, 0x02,
        0x6F, 0x07, 0x61, 0x05, 0x4F, 0x03, 0xA0, 0x01, 0x02]).Nodup :=
  ⟨rfl, by decide⟩

/-- C9: AID extraction never returns an empty list: when neither the TLV walk
nor the brute-force scan finds a 0x4F value, the hard-coded Mastercard AID is
returned, in particular on the empty directory response `6F 00`. -/
theorem c9_mastercard_fallback :
    (∀ resp : List Nat, extract_aids_from_ppse resp ≠ []) ∧
    (∀ resp : List Nat, (find_aid_in_tlv (parse_tlv resp)).2 = false →
      brute_scan resp = [] → extract_aids_from_ppse resp = [mastercardFallback]) ∧
    extract_aids_from_ppse [0x6F, 0x00] = [mastercardFallback] := by
  refine ⟨?_, ?_, rfl⟩
  · intro resp
    simp only [extract_aids_from_ppse]
    split <;> split
    · simp
    · assumption
    · simp
    · assumption
  · intro resp h1 h2
    simp only [extract_aids_from_ppse, h1, Bool.false_eq_true, if_false, h2, if_pos]

/-- C9 witness: the fallback statement instantiated at the empty directory
response `6F 00`, both emptiness hypotheses discharged by evaluation. -/
theorem c9_mastercard_fallback_witness :
    (find_aid_in_tlv (parse_tlv [0x6F, 0x00])).2 = false ∧
    brute_scan [0x6F, 0x00] = [] ∧
    extract_aids_from_ppse [0x6F, 0x00] ≠ [] ∧
    extract_aids_from_ppse [0x6F, 0x00] = [mastercardFallback] :=
  ⟨rfl, rfl, c9_mastercard_fallback.1 _, c9_mastercard_fallback.2.1 [0x6F, 0x00] rfl rfl⟩

theorem tlvFixedGo_step (fuel : Nat) (data : List Nat) (i : Nat) (acc : TlvEntries)
    (hg : i + 1 < data.length) (tag i1 : Nat) (hpt : parseTagAt data i = (tag, i1))
    (hi1 : i1 < data.length) (len0 i2 : Nat) (hpl : parseLenFixed data i1 = (len0, i2))
    (len1 : Nat) (hlen1 : len1 = min len0 (data.length - i2))
    (hok : ¬ (data.length < i2 + len1 ∨ len1 = 0))
    (hraw : ¬ (tag &&& 0x20 ≠ 0 ∧ emvTemplatesFixed.contains tag)) :
    tlvFixedGo (fuel + 1) data i acc =
      tlvFixedGo fuel data (i2 + len1)
        (dictInsert acc tag (TlvVal.raw ((data.drop i2).take len1))) := by
  conv_lhs => rw [tlvFixedGo]
  rw [if_pos hg]
  simp only [hpt, hpl, ← hlen1]
  rw [if_pos hi1, if_neg hok, if_neg hraw]

/-- C3 (amended): `parse_tlv_fixed` reads the `n` bytes after a long-form
length byte `0x80|n` (n in 1..4) as a big-endian length, and a decoded
length reaching past the end of the slice is clamped: the value runs exactly
to the end of the slice and the element is still returned. -/
theorem c3_long_form_amended :
    ∀ (t n : Nat) (rest : List Nat),
      1 ≤ n → n ≤ 4 → t &&& 0x1F ≠ 0x1F → t &&& 0x20 = 0 → n ≤ rest.length →
      parseLenFixed (t :: (0x80 ||| n) :: rest) 1 = (beFold (rest.take n), 2 + n) ∧
      (n < rest.length → rest.length ≤ n + beFold (rest.take n) →
        parse_tlv_fixed (t :: (0x80 ||| n) :: rest) = .ent t (.raw (rest.drop n)) .nil) := by
  intro t n rest h1 h4 ht hprim hn
  have hb1 : (0x80 ||| n) &&& 0x80 ≠ 0 := by interval_cases n <;> decide
  have hb2 : (0x80 ||| n) &&& 0x7F = n := by interval_cases n <;> decide
  have hlen : (t :: (0x80 ||| n) :: rest).length = rest.length + 2 := by simp
  have hplf : parseLenFixed (t :: (0x80 ||| n) :: rest) 1 = (beFold (rest.take n), 2 + n) := by
    have hget1 : (t :: (0x80 ||| n) :: rest).getD 1 0 = 0x80 ||| n := rfl
    rw [parseLenFixed, hget1, if_pos hb1, hb2]
    rw [readLenLoop_reads n 2 0 (t :: (0x80 ||| n) :: rest) (by omega)]
    rfl
  refine ⟨hplf, ?_⟩
  intro hlt hcl
  have hpt : parseTagAt (t :: (0x80 ||| n) :: rest) 0 = (t, 1) := by
    rw [parseTagAt]
    simp only [List.getD_cons_zero]
    rw [if_neg ht]
  have hstep := tlvFixedGo_step (t :: (0x80 ||| n) :: rest).length (t :: (0x80 ||| n) :: rest)
    0 .nil (by omega) t 1 hpt (by omega) (beFold (rest.take n)) (2 + n) hplf
    (rest.length - n) (by rw [hlen]; omega) (by rw [hlen]; omega)
    (fun hc => hc.1 hprim)
  rw [parse_tlv_fixed, hstep]
  have hdrop2 : ((t :: (0x80 ||| n) :: rest).drop (2 + n)) = rest.drop n := by
    have h2n : 2 + n = n + 2 := by omega
    rw [h2n]
    rfl
  have htake : (rest.drop n).take (rest.length - n) = rest.drop n :=
    List.take_of_length_le (by simp)
  rw [tlvFixedGo_at_end _ _ _ _ (by rw [hlen]; omega)]
  rw [hdrop2, htake]
  rfl

/-- C3 witness: tag 5A, long form 82 with length bytes 00 05 over a slice
holding only two value bytes; the decoded big-endian length 5 is clamped and
the value runs to the end of the slice. -/
theorem c3_long_form_witness :
    parseLenFixed [0x5A, 0x82, 0x00, 0x05, 0xAA, 0xBB] 1 = (5, 4) ∧
    parse_tlv_fixed [0x5A, 0x82, 0x00, 0x05, 0xAA, 0xBB] = .ent 0x5A (.raw [0xAA, 0xBB]) .nil := by
  have h := c3_long_form_amended 0x5A 2 [0x00, 0x05, 0xAA, 0xBB]
    (by decide) (by decide) (by decide) (by decide) (by decide)
  exact ⟨h.1, h.2 (by decide) (by decide)⟩

/-- C3 counterexample: on `5A 82 00 01 77` the non-fixed parser `parse_tlv`
does not read the two length bytes 00 01 big-endian: it takes the count 2
itself as the length and returns value `00 01`, while `parse_tlv_fixed`
returns the correct value `77`; so the claimed behaviour does not hold for
both parsers. -/
theorem c3_counterexample :
    parse_tlv [0x5A, 0x82, 0x00, 0x01, 0x77] = .ent 0x5A (.raw [0x00, 0x01]) .nil ∧
    parse_tlv_fixed [0x5A, 0x82, 0x00, 0x01, 0x77] = .ent 0x5A (.raw [0x77]) .nil ∧
    ([0x00, 0x01] : List Nat) ≠ [0x77] :=
  ⟨rfl, rfl, by decide⟩

theorem read_records_go_sublist :
    ∀ (l : List Nat) (st : TransState) (p2 : Nat),
      List.Sublist ((read_records_go p2 st l).1.map Prod.fst) l := by
  intro l
  induction l with
  | nil => intro st p2; simp [read_records_go]
  | cons rn rest ih =>
    intro st p2
    simp only [read_records_go]
    split
    · simp only [List.map_cons]
      exact List.Sublist.cons₂ rn (ih _ _)
    · split
      · simp
      · split
        · simp
        · exact List.Sublist.cons rn (ih _ _)

/-- C4 (amended): per SFI the sweep issues READ RECORD for record numbers
1..9 in increasing order (the successful record numbers always form a
sublist of `[1..9]`); it stops the SFI early on 6A82/6A83 or on 6985, any
other non-success response just moves to the next record number, and a stop
in one SFI does not halt the other SFIs (concrete runs below). -/
theorem c4_record_sweep_amended :
    (∀ (st : TransState) (p2 : Nat),
      List.Sublist ((read_records_go p2 st record_nums).1.map Prod.fst) record_nums) ∧
    (read_card_records ⟨[⟨[], 0x69, 0x85⟩, ⟨[0x11], 0x90, 0x00⟩, ⟨[], 0x6A, 0x82⟩,
        ⟨[], 0x6A, 0x82⟩, ⟨[], 0x6A, 0x82⟩], []⟩).1 =
      [(1, []), (2, [(1, [0x11])]), (3, []), (4, [])] ∧
    (read_card_records ⟨[⟨[], 0x6A, 0x81⟩, ⟨[0x22], 0x90, 0x00⟩, ⟨[], 0x6A, 0x82⟩,
        ⟨[], 0x6A, 0x82⟩, ⟨[], 0x6A, 0x82⟩, ⟨[], 0x6A, 0x82⟩], []⟩).1 =
      [(1, [(2, [0x22])]), (2, []), (3, []), (4, [])] :=
  ⟨fun st p2 => read_records_go_sublist record_nums st p2, by decide, by decide⟩

/-- C4 counterexample: with every response a non-success 6A81, the sweep
issues 9 READ RECORD commands per SFI (36 in total over the four SFIs) and in
particular still issues record number 6 of SFI 1 after five consecutive
non-success responses, so there is no 5-consecutive-failure cutoff. -/
theorem c4_record_sweep_counterexample :
    (read_card_records ⟨List.replicate 36 ⟨[], 0x6A, 0x81⟩, []⟩).2.sent.length = 36 ∧
    [0x00, 0xB2, 0x06, 0x0C, 0x00] ∈
      (read_card_records ⟨List.replicate 36 ⟨[], 0x6A, 0x81⟩, []⟩).2.sent ∧
    (read_card_records ⟨List.replicate 36 ⟨[], 0x6A, 0x81⟩, []⟩).2.script = [] := by
  refine ⟨by decide, by decide, by decide⟩

/-- C5 (amended): the 6C wrong-length retry exists only in the record-read
path: there `00 B2 rn p2 00` answered by (empty, 6C, k) is reissued with its
last byte replaced by k and the 0x61 rule is applied once more; with the
retry answered by (payload, 9000) the read returns the payload. -/
theorem c5_wrong_le_amended :
    ∀ (rn p2 k : Nat) (payload : List Nat) (rest : List Resp), k ≤ 256 →
      read_record_once ⟨⟨[], 0x6C, k⟩ :: ⟨payload, 0x90, 0x00⟩ :: rest, []⟩ rn p2 =
        (⟨payload, 0x90, 0x00⟩, ⟨rest, [[0x00, 0xB2, rn, p2, 0x00], [0x00, 0xB2, rn, p2, k]]⟩) ∧
      (∀ m : Nat,
        read_record_once ⟨⟨[], 0x6C, k⟩ :: ⟨[], 0x61, m⟩ :: ⟨payload, 0x90, 0x00⟩ :: rest, []⟩
            rn p2 =
          (⟨payload, 0x90, 0x00⟩, ⟨rest, [[0x00, 0xB2, rn, p2, 0x00], [0x00, 0xB2, rn, p2, k],
            [0x00, 0xC0, 0x00, 0x00, m]]⟩)) := by
  intro rn p2 k payload rest hk
  constructor
  · simp [read_record_once, transmit, get_response, hk]
  · intro m
    simp [read_record_once, transmit, get_response, hk]

/-- C5 witness: the record-read retry instantiated with k = 0x12. -/
theorem c5_wrong_le_witness :
    (0x12 : Nat) ≤ 256 ∧
    read_record_once ⟨[⟨[], 0x6C, 0x12⟩, ⟨[0xBB], 0x90, 0x00⟩], []⟩ 1 0x0C =
      (⟨[0xBB], 0x90, 0x00⟩, ⟨[], [[0x00, 0xB2, 1, 0x0C, 0x00], [0x00, 0xB2, 1, 0x0C, 0x12]]⟩) :=
  ⟨by decide, (c5_wrong_le_amended 1 0x0C 0x12 [0xBB] [] (by decide)).1⟩

/-- C5 counterexample: application selection has no 6C handling: on
(empty, 6C, 0x12) `select_aid` sends no second command, leaves the scripted
success unconsumed and returns failure instead of the payload. -/
theorem c5_select_counterexample :
    select_aid ⟨[⟨[], 0x6C, 0x12⟩, ⟨[0xAA], 0x90, 0x00⟩], []⟩
        [0xA0, 0x00, 0x00, 0x00, 0x03, 0x10, 0x10] =
      (none, ⟨[⟨[0xAA], 0x90, 0x00⟩],
        [[0x00, 0xA4, 0x04, 0x00, 0x07, 0xA0, 0x00, 0x00, 0x00, 0x03, 0x10, 0x10, 0x00]]⟩) ∧
    (none : Option (List Nat)) ≠ some [0xAA] :=
  ⟨by decide, by decide⟩

/-- C6: on sw1 = 0x61 with sw2 = k, both selection commands issue exactly one
GET RESPONSE `00 C0 00 00 k` and return the follow-up result in place of the
original: the sent log holds exactly the SELECT and one GET RESPONSE. -/
theorem c6_get_response_chain :
    ∀ (k : Nat) (payload : List Nat) (rest : List Resp),
      select_ppse ⟨⟨[], 0x61, k⟩ :: ⟨payload, 0x90, 0x00⟩ :: rest, []⟩ =
        (some payload, ⟨rest, [[0x00, 0xA4, 0x04, 0x00, 0x0E] ++ ppseName,
          [0x00, 0xC0, 0x00, 0x00, k]]⟩) ∧
      (∀ aid : List Nat,
        select_aid ⟨⟨[], 0x61, k⟩ :: ⟨payload, 0x90, 0x00⟩ :: rest, []⟩ aid =
          (some payload, ⟨rest, [[0x00, 0xA4, 0x04, 0x00, aid.length] ++ aid ++ [0x00],
            [0x00, 0xC0, 0x00, 0x00, k]]⟩)) := by
  intro k payload rest
  constructor
  · simp [select_ppse, transmit, get_response, ppseName]
  · intro aid
    simp [select_aid, transmit, get_response]

/-- C8 (amended): the fallback AID list is tried in its source order
(Mastercard, Mastercard alternate, Visa, Visa alternate, FNB/JCB) and the
selected application is the first candidate whose SELECT yields 9000 with a
non-empty response: with the first k candidates failing and the next
returning (payload, 9000), candidate k is selected. -/
theorem c8_fallback_order_amended :
    fallback_aids = [[0xA0, 0x00, 0x00, 0x00, 0x04, 0x10, 0x10],
      [0xA0, 0x00, 0x00, 0x00, 0x04, 0x01], [0xA0, 0x00, 0x00, 0x00, 0x03, 0x10, 0x10],
      [0xA0, 0x00, 0x00, 0x00, 0x03, 0x80, 0x02], [0xA0, 0x00, 0x00, 0x00, 0x65, 0x10, 0x10]] ∧
    (∀ (aids : List (List Nat)) (k : Nat) (payload : List Nat) (rest : List Resp)
        (sent : List (List Nat)),
      k < aids.length → payload ≠ [] →
      (select_first_aid
          ⟨List.replicate k ⟨[], 0x6A, 0x82⟩ ++ ⟨payload, 0x90, 0x00⟩ :: rest, sent⟩ aids).1 =
        some (payload, aids.getD k [])) := by
  refine ⟨rfl, ?_⟩
  intro aids
  induction aids with
  | nil =>
    intro k payload rest sent hk
    simp at hk
  | cons a as ih =>
    intro k payload rest sent hk hp
    cases k with
    | zero =>
      simp [select_first_aid, select_aid, transmit, get_response, hp]
    | succ k' =>
      rw [List.replicate_succ, List.cons_append, List.getD_cons_succ]
      have hsel : select_aid ⟨⟨[], 0x6A, 0x82⟩ ::
          (List.replicate k' ⟨[], 0x6A, 0x82⟩ ++ ⟨payload, 0x90, 0x00⟩ :: rest), sent⟩ a =
          (none, ⟨List.replicate k' ⟨[], 0x6A, 0x82⟩ ++ ⟨payload, 0x90, 0x00⟩ :: rest,
            sent ++ [[0x00, 0xA4, 0x04, 0x00, a.length] ++ a ++ [0x00]]⟩) := by
        simp [select_aid, transmit, get_response]
      simp only [select_first_aid, hsel]
      exact ih k' payload rest _ (by simp only [List.length_cons] at hk; omega) hp

/-- C8 witness: with the first fallback candidate failing and the second
answering 9000 with a non-empty FCI, the Mastercard-alternate AID (the
second entry of the source order) is selected. -/
theorem c8_fallback_order_witness :
    (1 : Nat) < fallback_aids.length ∧ ([0x6F] : List Nat) ≠ [] ∧
    (select_first_aid ⟨List.replicate 1 ⟨[], 0x6A, 0x82⟩ ++ ⟨[0x6F], 0x90, 0x00⟩ :: [], []⟩
        fallback_aids).1 =
      some ([0x6F], fallback_aids.getD 1 []) :=
  ⟨by decide, by decide,
    c8_fallback_order_amended.2 fallback_aids 1 [0x6F] [] [] (by decide) (by decide)⟩

/-- C8 counterexample: the code's fallback order starts with Mastercard, not
Visa: the list differs from the claimed prioritized order. -/
theorem c8_fallback_order_counterexample :
    fallback_aids.headD [] = [0xA0, 0x00, 0x00, 0x00, 0x04, 0x10, 0x10] ∧
    fallback_aids ≠ [[0xA0, 0x00, 0x00, 0x00, 0x03, 0x10, 0x10],
      [0xA0, 0x00, 0x00, 0x00, 0x04, 0x10, 0x10], [0xA0, 0x00, 0x00, 0x00, 0x04, 0x01],
      [0xA0, 0x00, 0x00, 0x00, 0x03, 0x80, 0x02], [0xA0, 0x00, 0x00, 0x00, 0x65, 0x10, 0x10]] :=
  ⟨rfl, by decide⟩
